import Mathlib

/-!
# Verification of the mc-query binary codecs and client state machines

A shallow embedding, in Lean, of the core of the `mc-query` crate: the
VarInt codec (`src/varint.rs`), the RCON packet codec
(`src/rcon/packet.rs`), the RCON client checks (`src/rcon/client.rs`),
the status read pipeline (`src/status/mod.rs`, `src/status.rs`) and the
Query stat request/retry flow (`src/query/mod.rs`).

Machine integers are modelled as `Nat`/`Int` with explicit `% 2^32`
wrapping where the Rust code relies on two's-complement behaviour.
Byte buffers are `List Nat` (each element a byte value), Rust `String`s
are `List Nat` of Unicode scalar values.  Fallible Rust functions
return `Except`; functions that can panic (buffer underflow via
`bytes.get_u8`/`get_i32_le`, or the `unreachable!()` arm) return
`Option (Except _ _)` where `none` marks the panic.
-/

deriving instance DecidableEq for Except

/-- Interpret the low 32 bits of a natural number as a signed 32-bit
integer (two's complement), as Rust's `as i32` does on a `u32` pattern. -/
def toSigned32 (n : Nat) : Int :=
  if n % 2 ^ 32 < 2 ^ 31 then (n % 2 ^ 32 : Int) else (n % 2 ^ 32 : Int) - 2 ^ 32

/-- The `u32` bit pattern of a signed 32-bit integer: Rust's
`(value as u64) & 0xffff_ffff` applied to an `i32`. -/
def toPattern32 (v : Int) : Nat :=
  (v % 2 ^ 32).toNat

/-! ## VarInt codec (`src/varint.rs`) -/

/-- The errors of `MinecraftProtocolError` (`src/errors.rs`). -/
inductive MinecraftProtocolError where
  | InvalidVarInt
  | InvalidState
  | InvalidStatusResponse
  deriving DecidableEq, Repr

/-- The emit loop of `impl From<i32> for VarInt`: repeatedly emit the low
7 bits of `value`, with the continuation bit `0x80` set on every byte
except the last, right-shifting by 7 until the value is zero. -/
def varIntEncodeLoop (value : Nat) : List Nat :=
  if _h : value / 128 = 0 then
    [value % 128]
  else
    (value % 128 + 128) :: varIntEncodeLoop (value / 128)
decreasing_by
  exact Nat.div_lt_self (Nat.pos_of_ne_zero fun h0 => _h (by simp [h0])) (by norm_num)

/-- `impl From<i32> for VarInt`: mask the value to its unsigned 32-bit
pattern, then run the emit loop. -/
def varIntEncode (v : Int) : List Nat :=
  varIntEncodeLoop (toPattern32 v)

/-- The accumulation loop of `impl TryInto<i32> for VarInt`: or in the
low 7 bits of each byte shifted by the current position, return on a
byte with the continuation bit clear, fail with `InvalidVarInt` once the
position would reach 32.  Exhausting the bytes hits the `unreachable!()`
panic, modelled as `none`. -/
def varIntDecodeLoop : List Nat → Nat → Nat → Option (Except MinecraftProtocolError Int)
  | [], _, _ => none
  | b :: rest, value, position =>
    let value' := value ||| (b &&& 127) <<< position % 2 ^ 32
    if b &&& 128 = 0 then
      some (.ok (toSigned32 value'))
    else if position + 7 ≥ 32 then
      some (.error .InvalidVarInt)
    else
      varIntDecodeLoop rest value' (position + 7)

/-- `impl TryInto<i32> for VarInt` on a byte buffer. -/
def varIntDecode (bytes : List Nat) : Option (Except MinecraftProtocolError Int) :=
  varIntDecodeLoop bytes 0 0

/-! ## RCON packet codec (`src/rcon/packet.rs`) -/

/-- The errors of `RconProtocolError` (`src/errors.rs`). -/
inductive RconProtocolError where
  | NonAsciiPayload
  | AuthFailed
  | InvalidPacketType
  | InvalidRconResponse
  | PayloadTooLong
  | RequestIdMismatch
  deriving DecidableEq, Repr

/-- `RconPacketType` (`src/rcon/packet.rs`). -/
inductive RconPacketType where
  | Response
  | Login
  | RunCommand
  deriving DecidableEq, Repr

/-- `impl From<RconPacketType> for i32`. -/
def RconPacketType.toI32 : RconPacketType → Int
  | .Response => 0
  | .RunCommand => 2
  | .Login => 3

/-- `impl TryFrom<i32> for RconPacketType`. -/
def RconPacketType.tryFromI32 (value : Int) : Except RconProtocolError RconPacketType :=
  if value = 0 then .ok .Response
  else if value = 2 then .ok .RunCommand
  else if value = 3 then .ok .Login
  else .error .InvalidPacketType

/-- An RCON packet; the payload is the sequence of Unicode scalar values
of the Rust `String`. -/
structure RconPacket where
  request_id : Int
  packet_type : RconPacketType
  payload : List Nat
  deriving DecidableEq, Repr

/-- The UTF-8 byte size of one Unicode scalar value (Rust `char::len_utf8`). -/
def utf8Size (c : Nat) : Nat :=
  if c < 0x80 then 1 else if c < 0x800 then 2 else if c < 0x10000 then 3 else 4

/-- The UTF-8 byte length of a string (Rust `String::len`). -/
def utf8Len (s : List Nat) : Nat :=
  (s.map utf8Size).sum

/-- The UTF-8 bytes of one Unicode scalar value. -/
def utf8EncodeChar (c : Nat) : List Nat :=
  if c < 0x80 then [c]
  else if c < 0x800 then
    [0xC0 ||| c >>> 6, 0x80 ||| (c &&& 0x3F)]
  else if c < 0x10000 then
    [0xE0 ||| c >>> 12, 0x80 ||| (c >>> 6 &&& 0x3F), 0x80 ||| (c &&& 0x3F)]
  else
    [0xF0 ||| c >>> 18, 0x80 ||| (c >>> 12 &&& 0x3F), 0x80 ||| (c >>> 6 &&& 0x3F),
      0x80 ||| (c &&& 0x3F)]

/-- The UTF-8 bytes of a string (Rust `str::as_bytes`). -/
def utf8Encode (s : List Nat) : List Nat :=
  (s.map utf8EncodeChar).flatten

/-- `RconPacket::new`: reject a non-ASCII payload with `NonAsciiPayload`.
The source's `if payload.len() > 1446 {}` has an empty body, so no
length check takes effect. -/
def RconPacket.new (request_id : Int) (packet_type : RconPacketType)
    (payload : List Nat) : Except RconProtocolError RconPacket :=
  if ¬ ∀ c ∈ payload, c < 128 then .error .NonAsciiPayload
  else .ok ⟨request_id, packet_type, payload⟩

/-- `get_remaining_length`: `(payload.len() + size_of::<i32>() * 2 + 2) as i32`. -/
def get_remaining_length (payload : List Nat) : Int :=
  toSigned32 (utf8Len payload + 4 * 2 + 2)

/-- The four little-endian bytes of an `i32` (`BufMut::put_i32_le`). -/
def i32leBytes (v : Int) : List Nat :=
  [toPattern32 v % 256, toPattern32 v / 256 % 256,
    toPattern32 v / 65536 % 256, toPattern32 v / 16777216 % 256]

/-- `Buf::get_i32_le`: consume four bytes as a little-endian `i32`;
fewer than four remaining bytes is a panic (`none`). -/
def getI32le : List Nat → Option (Int × List Nat)
  | b0 :: b1 :: b2 :: b3 :: rest =>
    some (toSigned32 (b0 + 256 * b1 + 65536 * b2 + 16777216 * b3), rest)
  | _ => none

/-- The payload loop of `TryFrom<Bytes> for RconPacket`: `get_u8` until a
zero byte.  Running out of bytes panics (`none`). -/
def readCString : List Nat → Option (List Nat × List Nat)
  | [] => none
  | b :: rest =>
    if b = 0 then some ([], rest)
    else
      match readCString rest with
      | none => none
      | some (s, r) => some (b :: s, r)

/-- `impl TryFrom<Bytes> for RconPacket`: read the three leading
little-endian `i32` fields, the null-terminated payload, check the
payload characters (ASCII or the `char` decoded from byte `0xa7`), the
padding byte, the declared length, the packet type, and finally build
the packet through `RconPacket::new`. -/
def RconPacket.tryFrom (bytes : List Nat) : Option (Except RconProtocolError RconPacket) :=
  match getI32le bytes with
  | none => none
  | some (len, bytes1) =>
    match getI32le bytes1 with
    | none => none
    | some (request_id, bytes2) =>
      match getI32le bytes2 with
      | none => none
      | some (packet_type, bytes3) =>
        match readCString bytes3 with
        | none => none
        | some (payload, bytes4) =>
          if (¬ ∀ c ∈ payload, c < 128) ∧ ∃ c ∈ payload, 128 ≤ c ∧ c % 256 ≠ 0xa7 then
            some (.error .NonAsciiPayload)
          else
            match bytes4 with
            | [] => none
            | pad :: _bytes5 =>
              if pad ≠ 0 then some (.error .InvalidRconResponse)
              else if get_remaining_length payload ≠ len then
                some (.error .InvalidRconResponse)
              else
                match RconPacketType.tryFromI32 packet_type with
                | .error e => some (.error e)
                | .ok pt => some (RconPacket.new request_id pt payload)

/-- `impl From<RconPacket> for Bytes`: length, request id and type as
little-endian `i32`s, the payload's UTF-8 bytes, and a zero `u16`. -/
def RconPacket.toBytes (packet : RconPacket) : List Nat :=
  i32leBytes (get_remaining_length packet.payload) ++
    i32leBytes packet.request_id ++
    i32leBytes packet.packet_type.toI32 ++
    utf8Encode packet.payload ++ [0x00, 0x00]

/-! ## RCON client (`src/rcon/client.rs`) -/

/-- The checks `authenticate_raw` applies to the response packet it
reads back (lines 149–159 of `src/rcon/client.rs`). -/
def authenticate_response_check (packet : RconPacket) : Except RconProtocolError Unit :=
  if packet.packet_type ≠ .RunCommand then .error .InvalidPacketType
  else if packet.request_id = -1 then .error .AuthFailed
  else if packet.request_id ≠ 1 then .error .RequestIdMismatch
  else .ok ()

/-- The read loop of `run_command_raw` over the incoming response
packets, carrying the accumulated payload; `none` models a read that
never completes because the packet list is exhausted. -/
def run_command_loop : List RconPacket → List Nat → Option (Except RconProtocolError (List Nat))
  | [], _ => none
  | p :: rest, acc =>
    if p.request_id = -1 then some (.error .AuthFailed)
    else if p.request_id ≠ 1 then some (.error .RequestIdMismatch)
    else
      if utf8Len p.payload < 4096 then some (.ok (acc ++ p.payload))
      else run_command_loop rest (acc ++ p.payload)

/-! ## Status read pipeline (`src/status/mod.rs`, `src/status.rs`) -/

/-- How a failed read surfaces to the caller of `status`: a transport
error from the socket, an `InvalidData` error wrapping a
`MinecraftProtocolError`, or an `InvalidData` error wrapping the
`FromUtf8Error` of `String::from_utf8` in `read_mc_string`. -/
inductive StatusReadError where
  | ioError
  | protocolError (e : MinecraftProtocolError)
  | utf8Error
  deriving DecidableEq, Repr

/-- The byte-collection loop of `read_varint` (`src/socket.rs`): read
one byte at a time until the continuation bit is clear; an exhausted
stream is a failed socket read. -/
def collectVarIntBytes : List Nat → Option (List Nat × List Nat)
  | [] => none
  | b :: rest =>
    if b &&& 128 = 0 then some ([b], rest)
    else
      match collectVarIntBytes rest with
      | none => none
      | some (bs, r) => some (b :: bs, r)

/-- `read_varint` (`src/socket.rs`): collect the VarInt bytes from the
stream and convert them with `TryInto<i32>`. -/
def readVarIntStream (stream : List Nat) : Except StatusReadError (Int × List Nat) :=
  match collectVarIntBytes stream with
  | none => .error .ioError
  | some (bs, rest) =>
    match varIntDecode bs with
    | none => .error .ioError
    | some (.error e) => .error (.protocolError e)
    | some (.ok v) => .ok (v, rest)

/-- `read_mc_string` (`src/socket.rs`): a VarInt length, then exactly
`len as usize` bytes (`read_exact`; a short stream is a failed read),
validated by `String::from_utf8`, which is modelled abstractly by
`utf8dec` since it is a collaborator from the standard library. -/
def readMcString (utf8dec : List Nat → Option (List Nat)) (stream : List Nat) :
    Except StatusReadError (List Nat × List Nat) :=
  match readVarIntStream stream with
  | .error e => .error e
  | .ok (len, s1) =>
    let n := (len % 2 ^ 64).toNat
    if s1.length < n then .error .ioError
    else
      match utf8dec (s1.take n) with
      | none => .error .utf8Error
      | some cs => .ok (cs, s1.drop n)

/-- The response-reading tail of `status` (both `src/status/mod.rs` and
`src/status.rs`): read the framed length (unused), the packet id, fail
with `InvalidStatusResponse` unless it is `0`, read the Minecraft-string
payload, and hand it to the external JSON decoder `jsonDecode`
(`serde_json::from_str`), reporting a decode failure as
`InvalidStatusResponse`. -/
def statusReadResponse {α : Type} (utf8dec : List Nat → Option (List Nat))
    (jsonDecode : List Nat → Option α) (stream : List Nat) :
    Except StatusReadError α :=
  match readVarIntStream stream with
  | .error e => .error e
  | .ok (_len, s1) =>
    match readVarIntStream s1 with
    | .error e => .error e
    | .ok (id, s2) =>
      if id ≠ 0 then .error (.protocolError .InvalidStatusResponse)
      else
        match readMcString utf8dec s2 with
        | .error e => .error e
        | .ok (data, _s3) =>
          match jsonDecode data with
          | none => .error (.protocolError .InvalidStatusResponse)
          | some r => .ok r

/-! ## Query stat request flow (`src/query/mod.rs`) -/

/-- A network action of the Query client: sending one UDP datagram or
awaiting one reply. -/
inductive QueryEvent where
  | send (bytes : List Nat)
  | waitReply
  deriving DecidableEq, Repr

/-- The four big-endian bytes of an `i32` (`BufMut::put_i32`). -/
def i32beBytes (v : Int) : List Nat :=
  [toPattern32 v / 16777216 % 256, toPattern32 v / 65536 % 256,
    toPattern32 v / 256 % 256, toPattern32 v % 256]

/-- The handshake request: magic `0xfe 0xfd`, type 9, session id. -/
def handshakeRequestBytes (session_id : Int) : List Nat :=
  [0xfe, 0xfd, 9] ++ i32beBytes session_id

/-- A basic-stat request: magic, type 0, session id, challenge token. -/
def statRequestBytes (session_id token : Int) : List Nat :=
  [0xfe, 0xfd, 0] ++ i32beBytes session_id ++ i32beBytes token

/-- A full-stat request: the basic request plus four zero padding bytes. -/
def statFullRequestBytes (session_id token : Int) : List Nat :=
  statRequestBytes session_id token ++ [0, 0, 0, 0]

/-- `(random::<u32>() & SESSION_ID_MASK) as i32` in `handshake`. -/
def sessionIdOf (r : Nat) : Int :=
  toSigned32 (r &&& 0x0f0f0f0f)

/-- The traffic of one `handshake` call: send the request, await the
reply. -/
def handshakeEvents (session_id : Int) : List QueryEvent :=
  [.send (handshakeRequestBytes session_id), .waitReply]

/-- The environment a stat call runs against: the two `random::<u32>()`
draws, the challenge tokens the two handshakes would parse, and whether
the first wait for the stat reply times out. -/
structure QueryEnv where
  rand1 : Nat
  token1 : Int
  rand2 : Nat
  token2 : Int
  firstTimesOut : Bool

/-- The send/await trace of `stat_basic` (`src/query/mod.rs` lines
106–133): handshake, send the stat request, await the reply; on a
timeout, handshake again and then only await — the source builds the
retry request into a fresh `BytesMut` but never passes it to
`socket.send`, so no second stat request is transmitted. -/
def statBasicEvents (env : QueryEnv) : List QueryEvent :=
  handshakeEvents (sessionIdOf env.rand1) ++
    [.send (statRequestBytes (sessionIdOf env.rand1) env.token1), .waitReply] ++
    (if env.firstTimesOut then
      handshakeEvents (sessionIdOf env.rand2) ++ [.waitReply]
    else [])

/-- The send/await trace of `stat_full` (`src/query/mod.rs` lines
183–212); the retry branch likewise builds but never sends the second
stat request. -/
def statFullEvents (env : QueryEnv) : List QueryEvent :=
  handshakeEvents (sessionIdOf env.rand1) ++
    [.send (statFullRequestBytes (sessionIdOf env.rand1) env.token1), .waitReply] ++
    (if env.firstTimesOut then
      handshakeEvents (sessionIdOf env.rand2) ++ [.waitReply]
    else [])

/-- Does this event send a stat request (magic, then type byte 0)? -/
def isStatRequestSend : QueryEvent → Bool
  | .send (0xfe :: 0xfd :: 0 :: _) => true
  | _ => false

/-! ### VarInt round-trip -/

/-- Oring a value below `2 ^ p` with a value shifted left by `p` is
addition: the bit ranges are disjoint. -/
theorem lor_shiftLeft_eq_add {a : Nat} (x : Nat) {p : Nat} (h : a < 2 ^ p) :
    a ||| x <<< p = a + x * 2 ^ p := by
  induction p generalizing a x with
  | zero =>
    obtain rfl : a = 0 := by omega
    simp [Nat.shiftLeft_eq]
  | succ p ih =>
    have hbit := Nat.bit_decide_mod_two_eq_one_shiftRight_one a
    set b := decide (a % 2 = 1) with hb
    set m := a >>> 1 with hm
    have hp2 : 2 ^ (p + 1) = 2 * 2 ^ p := by ring
    have hmlt : m < 2 ^ p := by
      rw [hm, Nat.shiftRight_one]
      omega
    have hx : x <<< (p + 1) = Nat.bit false (x <<< p) := by
      rw [Nat.bit_val, Bool.toNat_false, Nat.add_zero, Nat.shiftLeft_eq, Nat.shiftLeft_eq, pow_succ]
      ring
    have haval : a = 2 * m + b.toNat := by rw [← hbit, Nat.bit_val]
    calc a ||| x <<< (p + 1)
        = Nat.bit b m ||| Nat.bit false (x <<< p) := by rw [hbit, hx]
      _ = Nat.bit b (m ||| x <<< p) := by rw [Nat.lor_bit, Bool.or_false]
      _ = Nat.bit b (m + x * 2 ^ p) := by rw [ih x hmlt]
      _ = a + x * 2 ^ (p + 1) := by
          rw [Nat.bit_val, haval, pow_succ]
          ring

theorem and_128_eq_zero_of_lt {n : Nat} (h : n < 128) : n &&& 128 = 0 := by
  have h7 : (128 : Nat) = 2 ^ 7 := by norm_num
  rw [h7, Nat.and_two_pow, Nat.testBit_eq_false_of_lt (by omega)]
  simp

theorem and_127_eq_mod (n : Nat) : n &&& 127 = n % 128 := by
  have h7 : (127 : Nat) = 2 ^ 7 - 1 := by norm_num
  rw [h7, Nat.and_pow_two_sub_one_eq_mod]

theorem and_128_ne_zero {n : Nat} (h : 128 ≤ n) (h2 : n < 256) : n &&& 128 ≠ 0 := by
  have h7 : (128 : Nat) = 2 ^ 7 := by norm_num
  have ht : n.testBit 7 = true := by
    rw [Nat.testBit_to_div_mod]
    have hd : n / 2 ^ 7 = 1 := by norm_num; omega
    rw [hd]
    decide
  rw [h7, Nat.and_two_pow, ht]
  simp

/-- Decoding the emit loop's output from any starting position and
accumulator with disjoint bits reconstructs the accumulated pattern. -/
theorem varIntDecodeLoop_encodeLoop (value : Nat) :
    ∀ p acc, p < 32 → value < 2 ^ (32 - p) → acc < 2 ^ p →
      varIntDecodeLoop (varIntEncodeLoop value) acc p
        = some (.ok (toSigned32 (acc + value * 2 ^ p))) := by
  induction value using Nat.strongRecOn with
  | _ value ih =>
    intro p acc hp hv ha
    have hpos : 0 < (2 : Nat) ^ p := Nat.pos_pow_of_pos p (by norm_num)
    rw [varIntEncodeLoop]
    by_cases h0 : value / 128 = 0
    · have hlt : value < 128 := by omega
      have hmod : value % 128 = value := Nat.mod_eq_of_lt hlt
      have hsh : value <<< p < 2 ^ 32 := by
        rw [Nat.shiftLeft_eq]
        calc value * 2 ^ p < 2 ^ (32 - p) * 2 ^ p := (Nat.mul_lt_mul_right hpos).mpr hv
          _ = 2 ^ 32 := by rw [← pow_add]; congr 1; omega
      rw [dif_pos h0]
      simp only [varIntDecodeLoop, hmod, and_127_eq_mod,
        and_128_eq_zero_of_lt hlt, if_true, eq_self_iff_true]
      rw [Nat.mod_eq_of_lt hsh, lor_shiftLeft_eq_add value ha]
    · have hge : 128 ≤ value := by omega
      have hplt : p + 7 < 32 := by
        by_contra hc
        have h1 : 32 - p ≤ 7 := by omega
        have h2 : (2 : Nat) ^ (32 - p) ≤ 2 ^ 7 := Nat.pow_le_pow_right (by norm_num) h1
        norm_num at h2
        omega
      have hpadd : 2 ^ (p + 7) = 2 ^ p * 128 := by rw [pow_add]; norm_num
      have hsh : (value % 128) <<< p < 2 ^ 32 := by
        rw [Nat.shiftLeft_eq]
        have hm : value % 128 < 128 := Nat.mod_lt _ (by norm_num)
        have hlt' : (value % 128) * 2 ^ p < 128 * 2 ^ p := (Nat.mul_lt_mul_right hpos).mpr hm
        have h32 : 2 ^ p * 128 ≤ 2 ^ 32 := by
          rw [← hpadd]
          exact Nat.pow_le_pow_right (by norm_num) (by omega)
        omega
      rw [dif_neg h0]
      simp only [varIntDecodeLoop]
      have hb127 : (value % 128 + 128) &&& 127 = value % 128 := by
        rw [and_127_eq_mod]
        omega
      have hb128 : (value % 128 + 128) &&& 128 ≠ 0 :=
        and_128_ne_zero (by omega) (by omega)
      rw [hb127, if_neg hb128, if_neg (by omega : ¬p + 7 ≥ 32),
        Nat.mod_eq_of_lt hsh, lor_shiftLeft_eq_add (value % 128) ha]
      have hrec := ih (value / 128) (Nat.div_lt_self (by omega) (by norm_num))
        (p + 7) (acc + value % 128 * 2 ^ p) hplt
        (by
          rw [Nat.div_lt_iff_lt_mul (by norm_num : (0:Nat) < 128)]
          have he : 2 ^ (32 - (p + 7)) * 128 = 2 ^ (32 - p) := by
            have h128 : (128 : Nat) = 2 ^ 7 := by norm_num
            rw [h128, ← pow_add]
            congr 1
            omega
          omega)
        (by
          have hm : value % 128 ≤ 127 := by omega
          have hmul : value % 128 * 2 ^ p ≤ 127 * 2 ^ p :=
            Nat.mul_le_mul hm (Nat.le_refl _)
          omega)
      rw [hrec]
      have hval : 128 * (value / 128) + value % 128 = value := Nat.div_add_mod value 128
      have harith : acc + value % 128 * 2 ^ p + value / 128 * 2 ^ (p + 7)
          = acc + value * 2 ^ p := by
        calc acc + value % 128 * 2 ^ p + value / 128 * 2 ^ (p + 7)
            = acc + (128 * (value / 128) + value % 128) * 2 ^ p := by
              rw [hpadd]; ring
          _ = acc + value * 2 ^ p := by rw [hval]
      rw [harith]

/-- Masking to the 32-bit pattern and reading it back as signed is the
identity on the `i32` range. -/
theorem toSigned32_toPattern32 {v : Int} (h1 : -(2 ^ 31) ≤ v) (h2 : v < 2 ^ 31) :
    toSigned32 (toPattern32 v) = v := by
  simp only [toSigned32, toPattern32]
  split <;> omega

/-- C3: for every `i32` value `v`, decoding the VarInt encoding of `v`
yields `Ok v`, and the encoding matches the ten listed literal vectors
(`0 → 00`, `1 → 01`, `127 → 7f`, `128 → 80 01`, `255 → ff 01`,
`25565 → dd c7 01`, `2097151 → ff ff 7f`, `i32::MAX → ff ff ff ff 07`,
`-1 → ff ff ff ff 0f`, `i32::MIN → 80 80 80 80 08`). -/
theorem varint_roundtrip_and_vectors :
    (∀ v : Int, -(2 ^ 31) ≤ v → v < 2 ^ 31 →
      varIntDecode (varIntEncode v) = some (.ok v)) ∧
    varIntEncode 0 = [0x00] ∧
    varIntEncode 1 = [0x01] ∧
    varIntEncode 127 = [0x7f] ∧
    varIntEncode 128 = [0x80, 0x01] ∧
    varIntEncode 255 = [0xff, 0x01] ∧
    varIntEncode 25565 = [0xdd, 0xc7, 0x01] ∧
    varIntEncode 2097151 = [0xff, 0xff, 0x7f] ∧
    varIntEncode 2147483647 = [0xff, 0xff, 0xff, 0xff, 0x07] ∧
    varIntEncode (-1) = [0xff, 0xff, 0xff, 0xff, 0x0f] ∧
    varIntEncode (-2147483648) = [0x80, 0x80, 0x80, 0x80, 0x08] := by
  refine ⟨fun v h1 h2 => ?_, ?_, ?_, ?_, ?_, ?_, ?_, ?_, ?_, ?_, ?_⟩
  · have hpat : toPattern32 v < 2 ^ 32 := by
      simp only [toPattern32]
      omega
    have := varIntDecodeLoop_encodeLoop (toPattern32 v) 0 0 (by norm_num)
      (by simpa using hpat) (by norm_num)
    simp only [varIntDecode, varIntEncode, this, Nat.zero_add, pow_zero, Nat.mul_one]
    rw [toSigned32_toPattern32 h1 h2]
  all_goals simp [varIntEncode, toPattern32, varIntEncodeLoop]

/-- Witness for C3 at the concrete input 25565. -/
theorem varint_roundtrip_and_vectors_witness :
    varIntDecode (varIntEncode 25565) = some (.ok 25565) :=
  varint_roundtrip_and_vectors.1 25565 (by norm_num) (by norm_num)

/-- C8: VarInt decoding fails with `InvalidVarInt` whenever the first
five bytes all have the continuation bit set, whatever follows them. -/
theorem varint_decode_overlong_invalid
    (b0 b1 b2 b3 b4 : Nat) (rest : List Nat)
    (h0 : b0 &&& 128 ≠ 0) (h1 : b1 &&& 128 ≠ 0) (h2 : b2 &&& 128 ≠ 0)
    (h3 : b3 &&& 128 ≠ 0) (h4 : b4 &&& 128 ≠ 0) :
    varIntDecode (b0 :: b1 :: b2 :: b3 :: b4 :: rest)
      = some (.error .InvalidVarInt) := by
  simp only [varIntDecode, varIntDecodeLoop]
  rw [if_neg h0, if_neg (by norm_num : ¬0 + 7 ≥ 32),
    if_neg h1, if_neg (by norm_num : ¬0 + 7 + 7 ≥ 32),
    if_neg h2, if_neg (by norm_num : ¬0 + 7 + 7 + 7 ≥ 32),
    if_neg h3, if_neg (by norm_num : ¬0 + 7 + 7 + 7 + 7 ≥ 32),
    if_neg h4, if_pos (by norm_num : 0 + 7 + 7 + 7 + 7 + 7 ≥ 32)]

/-- Witness for C8: six bytes that all have the continuation bit set. -/
theorem varint_decode_overlong_invalid_witness :
    varIntDecode [0xff, 0xff, 0xff, 0xff, 0xff, 0xff]
      = some (.error .InvalidVarInt) :=
  varint_decode_overlong_invalid 0xff 0xff 0xff 0xff 0xff [0xff]
    (by decide) (by decide) (by decide) (by decide) (by decide)

/-! ### RCON codec lemmas -/

theorem toSigned32_range (n : Nat) :
    -(2 ^ 31) ≤ toSigned32 n ∧ toSigned32 n < 2 ^ 31 := by
  simp only [toSigned32]
  split <;> omega

theorem toSigned32_small {n : Nat} (h : n < 2 ^ 31) : toSigned32 n = n := by
  simp only [toSigned32]
  split <;> omega

theorem toPattern32_toSigned32 (n : Nat) :
    toPattern32 (toSigned32 n) = n % 2 ^ 32 := by
  simp only [toSigned32, toPattern32]
  split <;> omega

theorem toSigned32_mod (n : Nat) : toSigned32 (n % 2 ^ 32) = toSigned32 n := by
  simp only [toSigned32]
  split_ifs <;> omega

/-- Reading back four just-written little-endian bytes recovers the
`i32` bit pattern. -/
theorem getI32le_i32leBytes (v : Int) (rest : List Nat) :
    getI32le (i32leBytes v ++ rest) = some (toSigned32 (toPattern32 v), rest) := by
  simp only [i32leBytes, getI32le, List.cons_append, List.nil_append]
  have hn : toPattern32 v < 2 ^ 32 := by
    simp only [toPattern32]
    omega
  have hd : toPattern32 v % 256 + 256 * (toPattern32 v / 256 % 256) +
      65536 * (toPattern32 v / 65536 % 256) +
      16777216 * (toPattern32 v / 16777216 % 256) = toPattern32 v := by
    omega
  rw [hd]

/-- An ASCII string is its own UTF-8 encoding. -/
theorem utf8Encode_ascii : ∀ {s : List Nat}, (∀ c ∈ s, c < 128) → utf8Encode s = s
  | [], _ => rfl
  | c :: cs, h => by
    have hc : c < 0x80 := h c (List.mem_cons_self c cs)
    have hcs : utf8Encode cs = cs :=
      utf8Encode_ascii fun x hx => h x (List.mem_cons_of_mem c hx)
    simp only [utf8Encode, List.map_cons, List.flatten_cons] at hcs ⊢
    rw [utf8EncodeChar, if_pos hc, hcs]
    rfl

/-- The UTF-8 byte length of an ASCII string is its character count. -/
theorem utf8Len_ascii : ∀ {s : List Nat}, (∀ c ∈ s, c < 128) → utf8Len s = s.length
  | [], _ => rfl
  | c :: cs, h => by
    have hc : c < 0x80 := h c (List.mem_cons_self c cs)
    have hcs : utf8Len cs = cs.length :=
      utf8Len_ascii fun x hx => h x (List.mem_cons_of_mem c hx)
    simp only [utf8Len, List.map_cons, List.sum_cons] at hcs ⊢
    rw [utf8Size, if_pos hc, hcs, List.length_cons]
    omega

/-- Reading a null-terminated string that was laid out with its
terminator recovers it. -/
theorem readCString_append : ∀ {s : List Nat}, (∀ c ∈ s, c ≠ 0) → ∀ rest,
    readCString (s ++ 0 :: rest) = some (s, rest)
  | [], _, rest => by simp [readCString]
  | b :: s, h, rest => by
    have hb : b ≠ 0 := h b (List.mem_cons_self b s)
    have ih := readCString_append (fun x hx => h x (List.mem_cons_of_mem b hx)) rest
    simp only [List.cons_append, readCString, if_neg hb, List.append_eq, ih]

/-- Decoding a framed RCON buffer — three little-endian `i32` fields, a
null-terminated payload, a padding byte — applies the checks in the
code's order: payload characters first (ASCII or `0xa7`), then the
padding byte, then the declared length, then the packet type, and
finally `RconPacket::new`'s strict ASCII check. -/
theorem rconTryFrom_frame (len rid ty : Int) (payloadBytes : List Nat) (pad : Nat)
    (rest : List Nat)
    (h0 : ∀ c ∈ payloadBytes, c ≠ 0) (h256 : ∀ c ∈ payloadBytes, c < 256) :
    RconPacket.tryFrom (i32leBytes len ++ i32leBytes rid ++ i32leBytes ty ++
        payloadBytes ++ 0 :: pad :: rest)
      = if ∃ c ∈ payloadBytes, 128 ≤ c ∧ c ≠ 0xa7 then
          some (.error .NonAsciiPayload)
        else if pad ≠ 0 then some (.error .InvalidRconResponse)
        else if get_remaining_length payloadBytes ≠ toSigned32 (toPattern32 len) then
          some (.error .InvalidRconResponse)
        else
          match RconPacketType.tryFromI32 (toSigned32 (toPattern32 ty)) with
          | .error e => some (.error e)
          | .ok pt =>
            some (RconPacket.new (toSigned32 (toPattern32 rid)) pt payloadBytes) := by
  have hread := readCString_append h0 (pad :: rest)
  simp only [RconPacket.tryFrom, List.append_assoc, getI32le_i32leBytes, hread]
  have hcond : ((¬ ∀ c ∈ payloadBytes, c < 128) ∧
      ∃ c ∈ payloadBytes, 128 ≤ c ∧ c % 256 ≠ 0xa7) ↔
      ∃ c ∈ payloadBytes, 128 ≤ c ∧ c ≠ 0xa7 := by
    constructor
    · rintro ⟨-, c, hc, hge, hmod⟩
      have := h256 c hc
      exact ⟨c, hc, hge, by omega⟩
    · rintro ⟨c, hc, hge, hne⟩
      have := h256 c hc
      exact ⟨fun hall => by have := hall c hc; omega, c, hc, hge, by omega⟩
  exact if_congr hcond rfl rfl

/-- C4 (amended): for every `RconPacket` successfully constructed from an
`i32` request id, a type, and an ASCII payload containing no NUL
character (of length keeping the length field in `i32` range), encoding
then decoding yields the identical packet, and the declared length field
equals `2 * 4 + len(payload) + 2`. -/
theorem rcon_packet_roundtrip (rid : Int) (pt : RconPacketType) (payload : List Nat)
    (hid1 : -(2 ^ 31) ≤ rid) (hid2 : rid < 2 ^ 31)
    (hascii : ∀ c ∈ payload, c < 128) (hnull : ∀ c ∈ payload, c ≠ 0)
    (hlen : payload.length + 10 < 2 ^ 31) :
    RconPacket.new rid pt payload = .ok ⟨rid, pt, payload⟩ ∧
    RconPacket.tryFrom (RconPacket.toBytes ⟨rid, pt, payload⟩)
      = some (.ok ⟨rid, pt, payload⟩) ∧
    get_remaining_length payload = 2 * 4 + (payload.length : Int) + 2 := by
  have hnew : RconPacket.new rid pt payload = .ok ⟨rid, pt, payload⟩ := by
    rw [RconPacket.new, if_neg (not_not_intro hascii)]
  have h256 : ∀ c ∈ payload, c < 256 := fun c hc => lt_trans (hascii c hc) (by norm_num)
  have hulen : utf8Len payload = payload.length := utf8Len_ascii hascii
  have hgrl : get_remaining_length payload = (payload.length : Int) + 10 := by
    rw [get_remaining_length, hulen, toSigned32_small (by omega)]
    push_cast
    ring
  refine ⟨hnew, ?_, by rw [hgrl]; ring⟩
  have henc : utf8Encode payload = payload := utf8Encode_ascii hascii
  have hbytes : RconPacket.toBytes ⟨rid, pt, payload⟩
      = i32leBytes (get_remaining_length payload) ++ i32leBytes rid ++
          i32leBytes pt.toI32 ++ payload ++ 0 :: 0 :: [] := by
    simp [RconPacket.toBytes, henc]
  have hnoBad : ¬ ∃ c ∈ payload, 128 ≤ c ∧ c ≠ 0xa7 := by
    rintro ⟨c, hc, hge, -⟩
    have := hascii c hc
    omega
  have hlenOk : ¬ get_remaining_length payload
      ≠ toSigned32 (toPattern32 (get_remaining_length payload)) := by
    rw [get_remaining_length, toPattern32_toSigned32, toSigned32_mod]
    exact fun hne => hne rfl
  have hty : toSigned32 (toPattern32 pt.toI32) = pt.toI32 := by
    cases pt <;> decide
  have hrid : toSigned32 (toPattern32 rid) = rid := toSigned32_toPattern32 hid1 hid2
  rw [hbytes, rconTryFrom_frame _ _ _ _ _ _ hnull h256, if_neg hnoBad,
    if_neg (by norm_num : ¬(0 : Nat) ≠ 0), if_neg hlenOk, hty, hrid]
  cases pt <;> simp [RconPacketType.toI32, RconPacketType.tryFromI32, hnew]

/-- Witness for C4 at request id 1, type `Response`, payload "hi". -/
theorem rcon_packet_roundtrip_witness :
    RconPacket.new 1 .Response [104, 105] = .ok ⟨1, .Response, [104, 105]⟩ ∧
    RconPacket.tryFrom (RconPacket.toBytes ⟨1, .Response, [104, 105]⟩)
      = some (.ok ⟨1, .Response, [104, 105]⟩) ∧
    get_remaining_length [104, 105] = 2 * 4 + (2 : Int) + 2 :=
  rcon_packet_roundtrip 1 .Response [104, 105] (by norm_num) (by norm_num)
    (by decide) (by decide) (by norm_num)

/-- C4 counterexample: the packet with the ASCII payload consisting of
one NUL character is accepted by `RconPacket::new` but does not decode
back: the decoder stops the payload at the NUL and then the
reconstructed length `10` differs from the declared `11`. -/
theorem rcon_packet_roundtrip_counterexample :
    RconPacket.new 1 .Response [0] = .ok ⟨1, .Response, [0]⟩ ∧
    RconPacket.tryFrom (RconPacket.toBytes ⟨1, .Response, [0]⟩)
      = some (.error .InvalidRconResponse) := by decide

/-- C5 (amended): RCON packet decoding applies its validations in this
order: first each payload character must be ASCII or the character
decoded from byte `0xa7` (`NonAsciiPayload` otherwise), then the padding
byte must be `0x00` (`InvalidRconResponse`), then the reconstructed
remaining-length must equal the declared length field
(`InvalidRconResponse`), then the numeric type must map to a known
variant (`InvalidPacketType`), and finally `RconPacket::new` re-checks
strict ASCII (`NonAsciiPayload`). -/
theorem rcon_decode_validation_order (len rid ty : Int) (payloadBytes : List Nat)
    (pad : Nat) (rest : List Nat)
    (h0 : ∀ c ∈ payloadBytes, c ≠ 0) (h256 : ∀ c ∈ payloadBytes, c < 256) :
    RconPacket.tryFrom (i32leBytes len ++ i32leBytes rid ++ i32leBytes ty ++
        payloadBytes ++ 0 :: pad :: rest)
      = if ∃ c ∈ payloadBytes, 128 ≤ c ∧ c ≠ 0xa7 then
          some (.error .NonAsciiPayload)
        else if pad ≠ 0 then some (.error .InvalidRconResponse)
        else if get_remaining_length payloadBytes ≠ toSigned32 (toPattern32 len) then
          some (.error .InvalidRconResponse)
        else
          match RconPacketType.tryFromI32 (toSigned32 (toPattern32 ty)) with
          | .error e => some (.error e)
          | .ok pt =>
            some (RconPacket.new (toSigned32 (toPattern32 rid)) pt payloadBytes) :=
  rconTryFrom_frame len rid ty payloadBytes pad rest h0 h256

/-- Witness for C5: a frame whose payload byte `0xff` is non-ASCII and
whose padding byte is also wrong decodes to `NonAsciiPayload`. -/
theorem rcon_decode_validation_order_witness :
    RconPacket.tryFrom (i32leBytes 11 ++ i32leBytes 1 ++ i32leBytes 0 ++
        [0xff] ++ 0 :: 1 :: [])
      = some (.error .NonAsciiPayload) := by
  rw [rcon_decode_validation_order 11 1 0 [0xff] 1 [] (by decide) (by decide)]
  decide

/-- C5 counterexample: a buffer that fails both the ASCII check and the
padding check returns `NonAsciiPayload`, not the `InvalidRconResponse`
that the claimed padding-first order would produce. -/
theorem rcon_decode_validation_order_counterexample :
    RconPacket.tryFrom [11, 0, 0, 0, 1, 0, 0, 0, 0, 0, 0, 0, 0xff, 0x00, 0x01]
      = some (.error .NonAsciiPayload) ∧
    RconPacket.tryFrom [11, 0, 0, 0, 1, 0, 0, 0, 0, 0, 0, 0, 0xff, 0x00, 0x01]
      ≠ some (.error .InvalidRconResponse) := by decide

/-- C1: a well-formed response packet whose payload is the single byte
`0xa7` is *rejected*: with the wire-accurate declared length `11` the
UTF-8 re-measured length `12` fails the length check
(`InvalidRconResponse`), and with declared length `12` the final
`RconPacket::new` ASCII check fails (`NonAsciiPayload`) — although a
payload with a different non-ASCII byte such as `0xff` is rejected with
`NonAsciiPayload` exactly as specified. -/
theorem rcon_a7_payload_rejected :
    RconPacket.tryFrom [11, 0, 0, 0, 1, 0, 0, 0, 0, 0, 0, 0, 0xa7, 0x00, 0x00]
      = some (.error .InvalidRconResponse) ∧
    RconPacket.tryFrom [12, 0, 0, 0, 1, 0, 0, 0, 0, 0, 0, 0, 0xa7, 0x00, 0x00]
      = some (.error .NonAsciiPayload) ∧
    RconPacket.tryFrom [11, 0, 0, 0, 1, 0, 0, 0, 0, 0, 0, 0, 0xff, 0x00, 0x00]
      = some (.error .NonAsciiPayload) := by decide

/-- C10: `RconPacket::try_from` is not total: a buffer shorter than the
three leading `i32` fields panics in `get_i32_le`, and a buffer whose
payload region contains no `0x00` byte panics in the `get_u8` loop. -/
theorem rcon_tryFrom_not_total :
    RconPacket.tryFrom [] = none ∧
    RconPacket.tryFrom [11, 0, 0, 0, 1, 0, 0, 0, 0, 0] = none ∧
    RconPacket.tryFrom [13, 0, 0, 0, 1, 0, 0, 0, 0, 0, 0, 0, 65, 66] = none := by
  decide

/-- C6: the response checks of `authenticate`: a non-`RunCommand` type
fails with `InvalidPacketType`; then request id `-1` fails with
`AuthFailed`; then any id other than `1` fails with `RequestIdMismatch`;
otherwise authentication succeeds. -/
theorem authenticate_response_cases (p : RconPacket) :
    (p.packet_type ≠ .RunCommand →
      authenticate_response_check p = .error .InvalidPacketType) ∧
    (p.packet_type = .RunCommand → p.request_id = -1 →
      authenticate_response_check p = .error .AuthFailed) ∧
    (p.packet_type = .RunCommand → p.request_id ≠ -1 → p.request_id ≠ 1 →
      authenticate_response_check p = .error .RequestIdMismatch) ∧
    (p.packet_type = .RunCommand → p.request_id = 1 →
      authenticate_response_check p = .ok ()) := by
  refine ⟨fun h => ?_, fun h h1 => ?_, fun h h1 h2 => ?_, fun h h1 => ?_⟩ <;>
    simp_all [authenticate_response_check]

/-- Witness for C6: a `RunCommand` response with request id `-1` fails
with `AuthFailed`. -/
theorem authenticate_response_cases_witness :
    authenticate_response_check ⟨-1, .RunCommand, []⟩ = .error .AuthFailed :=
  (authenticate_response_cases ⟨-1, .RunCommand, []⟩).2.1 rfl rfl

/-- The `run_command_raw` read loop consumes full-size packets and stops
at the first short one, for any starting accumulator. -/
theorem run_command_loop_reassembles :
    ∀ (ps : List RconPacket) (q : RconPacket) (rest : List RconPacket) (acc : List Nat),
    (∀ p ∈ ps, p.request_id = 1 ∧ utf8Len p.payload = 4096) →
    q.request_id = 1 → utf8Len q.payload < 4096 →
    run_command_loop (ps ++ q :: rest) acc
      = some (.ok (acc ++ (ps.map RconPacket.payload).flatten ++ q.payload))
  | [], q, rest, acc, _, hq1, hq2 => by
    simp only [List.nil_append, run_command_loop, hq1, List.map_nil, List.flatten_nil,
      List.append_nil]
    norm_num [hq2]
  | p :: ps, q, rest, acc, hps, hq1, hq2 => by
    have hp := hps p (List.mem_cons_self p ps)
    have ih := run_command_loop_reassembles ps q rest (acc ++ p.payload)
      (fun x hx => hps x (List.mem_cons_of_mem p hx)) hq1 hq2
    simp only [List.cons_append, run_command_loop, hp.1, hp.2]
    norm_num [ih]

/-- C7: for every sequence of response packets with request id `1` in
which each packet's payload is exactly 4096 bytes except a later one
that is shorter, `run_command`'s loop returns the concatenation of the
payloads up to and including the first short packet, in arrival order,
ignoring everything after it. -/
theorem run_command_multi_packet (ps : List RconPacket) (q : RconPacket)
    (rest : List RconPacket)
    (hps : ∀ p ∈ ps, p.request_id = 1 ∧ utf8Len p.payload = 4096)
    (hq1 : q.request_id = 1) (hq2 : utf8Len q.payload < 4096) :
    run_command_loop (ps ++ q :: rest) []
      = some (.ok ((ps.map RconPacket.payload).flatten ++ q.payload)) := by
  have h := run_command_loop_reassembles ps q rest [] hps hq1 hq2
  simpa using h

/-- Witness for C7: one full 4096-byte packet followed by a short one
reassembles to the concatenation. -/
theorem run_command_multi_packet_witness :
    run_command_loop [⟨1, .Response, List.replicate 4096 97⟩, ⟨1, .Response, [98]⟩] []
      = some (.ok (List.replicate 4096 97 ++ [98])) := by
  have hrep : utf8Len (List.replicate 4096 97) = 4096 := by
    rw [utf8Len_ascii (fun c hc => by
      rw [List.eq_of_mem_replicate hc]
      norm_num), List.length_replicate]
  have h := run_command_multi_packet [⟨1, .Response, List.replicate 4096 97⟩]
    ⟨1, .Response, [98]⟩ []
    (fun p hp => by
      rcases List.mem_singleton.mp hp with rfl
      exact ⟨rfl, hrep⟩)
    rfl (by norm_num [utf8Len, utf8Size])
  rw [List.singleton_append] at h
  rw [show ([⟨(1 : Int), RconPacketType.Response, List.replicate 4096 97⟩].map
      RconPacket.payload).flatten = List.replicate 4096 97 ++ [] from rfl] at h
  rw [List.append_nil] at h
  exact h

/-! ### Status claims -/

/-- The only error `TryInto<i32> for VarInt` produces is `InvalidVarInt`. -/
theorem varIntDecodeLoop_error_invalid :
    ∀ (bs : List Nat) (v p : Nat) (e : MinecraftProtocolError),
      varIntDecodeLoop bs v p = some (.error e) → e = .InvalidVarInt
  | [], v, p, e => by simp [varIntDecodeLoop]
  | b :: rest, v, p, e => by
    simp only [varIntDecodeLoop]
    split_ifs with h1 h2
    · simp
    · intro h
      simp only [Option.some.injEq, Except.error.injEq] at h
      exact h.symm
    · exact varIntDecodeLoop_error_invalid rest _ _ e

/-- `read_varint` fails only with a transport error or `InvalidVarInt`. -/
theorem readVarIntStream_error {s : List Nat} {err : StatusReadError}
    (h : readVarIntStream s = .error err) :
    err = .ioError ∨ err = .protocolError .InvalidVarInt := by
  unfold readVarIntStream at h
  cases hc : collectVarIntBytes s with
  | none =>
    simp only [hc, Except.error.injEq] at h
    exact Or.inl h.symm
  | some pr =>
    obtain ⟨bs, rest⟩ := pr
    simp only [hc] at h
    cases hd : varIntDecode bs with
    | none =>
      simp only [hd, Except.error.injEq] at h
      exact Or.inl h.symm
    | some r =>
      cases r with
      | error e =>
        simp only [hd, Except.error.injEq] at h
        have he : e = .InvalidVarInt := varIntDecodeLoop_error_invalid bs 0 0 e hd
        subst he
        exact Or.inr h.symm
      | ok v =>
        simp only [hd] at h
        exact Except.noConfusion h

/-- `read_mc_string` fails only with a transport error, `InvalidVarInt`,
or a UTF-8 validation error. -/
theorem readMcString_error {u : List Nat → Option (List Nat)} {s : List Nat}
    {err : StatusReadError} (h : readMcString u s = .error err) :
    err = .ioError ∨ err = .protocolError .InvalidVarInt ∨ err = .utf8Error := by
  unfold readMcString at h
  cases hv : readVarIntStream s with
  | error e =>
    simp only [hv, Except.error.injEq] at h
    subst h
    rcases readVarIntStream_error hv with h1 | h1
    · exact Or.inl h1
    · exact Or.inr (Or.inl h1)
  | ok pr =>
    obtain ⟨len, s1⟩ := pr
    simp only [hv] at h
    split_ifs at h with hlen
    · simp only [Except.error.injEq] at h
      exact Or.inl h.symm
    · cases hu : u (s1.take (len % 2 ^ 64).toNat) with
      | none =>
        simp only [hu, Except.error.injEq] at h
        exact Or.inr (Or.inr h.symm)
      | some cs =>
        simp only [hu] at h
        exact Except.noConfusion h

/-- C9: the status read pipeline fails with `InvalidStatusResponse` in
exactly two protocol cases — the packet id read from the framed response
is not `0`, or the payload string cannot be decoded by the JSON
decoder; every other failure surfaces as a different error. -/
theorem status_invalid_response_iff {α : Type}
    (utf8dec : List Nat → Option (List Nat)) (jd : List Nat → Option α)
    (stream : List Nat) :
    statusReadResponse utf8dec jd stream
        = .error (.protocolError .InvalidStatusResponse)
      ↔ ∃ len s1 id s2, readVarIntStream stream = .ok (len, s1) ∧
          readVarIntStream s1 = .ok (id, s2) ∧
          (id ≠ 0 ∨ (id = 0 ∧ ∃ data s3,
            readMcString utf8dec s2 = .ok (data, s3) ∧ jd data = none)) := by
  unfold statusReadResponse
  cases h1 : readVarIntStream stream with
  | error e =>
    rcases readVarIntStream_error h1 with rfl | rfl <;> simp [h1]
  | ok v =>
    obtain ⟨len, s1⟩ := v
    cases h2 : readVarIntStream s1 with
    | error e =>
      rcases readVarIntStream_error h2 with rfl | rfl <;> simp [h1, h2]
    | ok w =>
      obtain ⟨id, s2⟩ := w
      by_cases hid : id = 0
      · subst hid
        simp only [ne_eq, not_true_eq_false, if_neg (by norm_num : ¬(0 : Int) ≠ 0)]
        cases h3 : readMcString utf8dec s2 with
        | error e =>
          rcases readMcString_error h3 with rfl | rfl | rfl <;> simp [h1, h2, h3]
        | ok d =>
          obtain ⟨data, s3⟩ := d
          cases h4 : jd data with
          | none =>
            simp only [h1, h2, h3, h4]
            constructor
            · intro _
              exact ⟨len, s1, 0, s2, rfl, h2, Or.inr ⟨rfl, data, s3, h3, h4⟩⟩
            · intro _
              trivial
          | some r => simp [h1, h2, h3, h4]
      · simp only [h1, h2, if_pos hid]
        constructor
        · intro _
          exact ⟨len, s1, id, s2, rfl, h2, Or.inl hid⟩
        · intro _
          trivial

/-! ### Query claims -/

/-- C2: when the first wait for the stat reply times out, both
`stat_basic` and `stat_full` perform a fresh handshake and wait again
but never send the second stat request: the trace contains exactly one
stat-request send, and the retry tail consists of the second handshake's
traffic followed directly by the second wait. -/
theorem query_retry_missing_send :
    (statBasicEvents ⟨1, 7, 2, 9, true⟩).countP isStatRequestSend = 1 ∧
    (statFullEvents ⟨1, 7, 2, 9, true⟩).countP isStatRequestSend = 1 ∧
    statBasicEvents ⟨1, 7, 2, 9, true⟩
      = [.send (handshakeRequestBytes (sessionIdOf 1)), .waitReply,
          .send (statRequestBytes (sessionIdOf 1) 7), .waitReply,
          .send (handshakeRequestBytes (sessionIdOf 2)), .waitReply,
          .waitReply] ∧
    statFullEvents ⟨1, 7, 2, 9, true⟩
      = [.send (handshakeRequestBytes (sessionIdOf 1)), .waitReply,
          .send (statFullRequestBytes (sessionIdOf 1) 7), .waitReply,
          .send (handshakeRequestBytes (sessionIdOf 2)), .waitReply,
          .waitReply] := by
  decide
